import Mathlib

/-!
Shallow embedding of the booking core of the Rust-API-Server-mongodb
repository: the time/reference normalizer (`TryFrom<BooKingRequest> for
Booking`, src/models/booking_model.rs), the cancel operation
(`Database::cancel_booking`, src/services/db.rs) and the active-bookings
aggregation query (`Database::get_bookings`, src/services/db.rs).

Modelling choices:
* a BSON `ObjectId` is the numeric value of its 24 hexadecimal digits
  (a `Nat`); `ObjectId.parse_str` / `ObjectId::from_str` succeed exactly
  on 24-character hexadecimal strings;
* a BSON `DateTime` is its integer number of milliseconds since the Unix
  epoch; `chrono::DateTime::parse_from_rfc3339` followed by
  `.with_timezone(&Utc)` is an RFC 3339 parser producing the absolute
  instant in seconds since the epoch;
* Rust `Result`/`?` becomes `Except`; a Rust `expect`/`panic` is a
  distinguished `panic` outcome of the operation's result type;
* the MongoDB store is a `StoreState` of three lists; `update_one` edits
  the first document matching the filter; the aggregation pipeline
  (`$match`, `$lookup` owner, `$unwind`, `$lookup` dogs) is composed
  stage by stage over those lists.
-/

namespace DogWalking

/-! ### ObjectId (mongodb::bson::oid::ObjectId) -/

/-- Value of one hexadecimal digit, `none` on a non-hex character. -/
def hexVal (c : Char) : Option Nat :=
  if '0' ≤ c ∧ c ≤ '9' then some (c.toNat - 48)
  else if 'a' ≤ c ∧ c ≤ 'f' then some (c.toNat - 87)
  else if 'A' ≤ c ∧ c ≤ 'F' then some (c.toNat - 55)
  else none

/-- Numeric value of a big-endian list of hexadecimal digits. -/
def hexListVal : List Char → Option Nat
  | [] => some 0
  | c :: cs =>
    match hexVal c, hexListVal cs with
    | some d, some r => some (d * 16 ^ cs.length + r)
    | _, _ => none

namespace ObjectId

/-- `ObjectId::parse_str` (also `ObjectId::from_str`): succeeds exactly on
strings of 24 hexadecimal characters, returning the id's numeric value. -/
def parse_str (s : String) : Option Nat :=
  if s.length = 24 then hexListVal s.toList else none

end ObjectId

/-! ### RFC 3339 timestamps (chrono::DateTime::parse_from_rfc3339) -/

/-- Value of one decimal digit, `none` on a non-digit character. -/
def digitVal (c : Char) : Option Nat :=
  if '0' ≤ c ∧ c ≤ '9' then some (c.toNat - 48) else none

/-- Read two decimal digits, with a chrono-style diagnostic on failure. -/
def read2 : List Char → Except String (Nat × List Char)
  | a :: b :: rest =>
    match digitVal a, digitVal b with
    | some x, some y => .ok (10 * x + y, rest)
    | _, _ => .error "input contains invalid characters"
  | _ => .error "premature end of input"

/-- Read four decimal digits (the year field). -/
def read4 : List Char → Except String (Nat × List Char)
  | a :: b :: c :: d :: rest =>
    match digitVal a, digitVal b, digitVal c, digitVal d with
    | some x, some y, some z, some w => .ok (1000 * x + 100 * y + 10 * z + w, rest)
    | _, _, _, _ => .error "input contains invalid characters"
  | _ => .error "premature end of input"

/-- Require a specific punctuation character. -/
def expectChar (c : Char) : List Char → Except String (List Char)
  | [] => .error "premature end of input"
  | x :: rest => if x = c then .ok rest else .error "input contains invalid characters"

/-- Require the date/time separator (`T` or `t`). -/
def expectSep : List Char → Except String (List Char)
  | [] => .error "premature end of input"
  | x :: rest =>
    if x = 'T' ∨ x = 't' then .ok rest else .error "input contains invalid characters"

/-- Drop a leading run of decimal digits. -/
def skipDigits : List Char → List Char
  | [] => []
  | c :: rest => if (digitVal c).isSome then skipDigits rest else c :: rest

/-- Skip an optional fractional-seconds field (`.` followed by at least
one digit); the fraction is below the one-second resolution kept here. -/
def readFrac : List Char → Except String (List Char)
  | '.' :: rest =>
    match rest with
    | c :: _ =>
      if (digitVal c).isSome then .ok (skipDigits rest)
      else .error "input contains invalid characters"
    | [] => .error "premature end of input"
  | l => .ok l

/-- Read the mandatory UTC offset: `Z`/`z`, or `±HH:MM`, as signed seconds.
A timestamp string that ends before the offset fails with
"premature end of input" — this is the missing-timezone case. -/
def readOffset : List Char → Except String (Int × List Char)
  | [] => .error "premature end of input"
  | c :: rest =>
    if c = 'Z' ∨ c = 'z' then .ok (0, rest)
    else if c = '+' ∨ c = '-' then
      match rest with
      | a :: b :: colon :: d :: e :: rest' =>
        match digitVal a, digitVal b, digitVal d, digitVal e with
        | some h1, some h2, some m1, some m2 =>
          if colon = ':' then
            let h := 10 * h1 + h2
            let m := 10 * m1 + m2
            if h ≤ 23 ∧ m ≤ 59 then
              let secs : Int := (h * 3600 + m * 60 : Nat)
              .ok (if c = '+' then secs else -secs, rest')
            else .error "input is out of range"
          else .error "input contains invalid characters"
        | _, _, _, _ => .error "input contains invalid characters"
      | _ => .error "premature end of input"
    else .error "input contains invalid characters"

/-- Gregorian leap-year test. -/
def isLeap (y : Nat) : Bool := (y % 4 = 0 ∧ y % 100 ≠ 0) ∨ y % 400 = 0

/-- Number of days in a month of a given year. -/
def daysInMonth (y m : Nat) : Nat :=
  if m = 2 then (if isLeap y then 29 else 28)
  else if m = 4 ∨ m = 6 ∨ m = 9 ∨ m = 11 then 30
  else 31

/-- Days from the Unix epoch (1970-01-01) to the civil date `y-m-d`
(proleptic Gregorian calendar). -/
def daysFromCivil (y m d : Nat) : Int :=
  let y' : Int := if m ≤ 2 then (y : Int) - 1 else (y : Int)
  let era : Int := Int.fdiv y' 400
  let yoe : Int := y' - era * 400
  let mp : Int := if 2 < m then (m : Int) - 3 else (m : Int) + 9
  let doy : Int := Int.fdiv (153 * mp + 2) 5 + (d : Int) - 1
  let doe : Int := yoe * 365 + Int.fdiv yoe 4 - Int.fdiv yoe 100 + doy
  era * 146097 + doe - 719468

/-- `chrono::DateTime::parse_from_rfc3339` followed by
`.with_timezone(&Utc)`: parse a timezone-qualified RFC 3339 string and
return the absolute UTC instant in seconds since the Unix epoch, or a
parse diagnostic. -/
def parse_from_rfc3339 (s : String) : Except String Int := do
  let (y, r) ← read4 s.toList
  let r ← expectChar '-' r
  let (mo, r) ← read2 r
  let r ← expectChar '-' r
  let (d, r) ← read2 r
  let r ← expectSep r
  let (h, r) ← read2 r
  let r ← expectChar ':' r
  let (mi, r) ← read2 r
  let r ← expectChar ':' r
  let (se, r) ← read2 r
  let r ← readFrac r
  let (off, r) ← readOffset r
  if r ≠ [] then throw "trailing input"
  if mo < 1 ∨ 12 < mo ∨ d < 1 ∨ daysInMonth y mo < d ∨ 23 < h ∨ 59 < mi ∨ 59 < se then
    throw "input is out of range"
  pure (daysFromCivil y mo d * 86400 + ((h * 3600 + mi * 60 + se : Nat) : Int) - off)

/-! ### Data model (src/models/booking_model.rs and, for the records whose
model files are not part of the sources at hand, the specification) -/

/-- `Booking` (src/models/booking_model.rs): persisted booking record.
`start_time` is a BSON DateTime in milliseconds since the epoch. -/
structure Booking where
  _id : Nat
  owner : Nat
  start_time : Int
  duration_in_minutes : Nat
  cancelled : Bool
deriving DecidableEq, Repr

/-- `BooKingRequest` (src/models/booking_model.rs): raw creation input. -/
structure BooKingRequest where
  owner : String
  start_time : String
  duration_in_minutes : Nat
deriving DecidableEq, Repr

/-- Modelled from the spec: `Owner` (owner_model.rs is not among the
sources at hand) — identifier, name, email, phone, address. Only the
identifier participates in the join logic. -/
structure Owner where
  _id : Nat
  name : String
  email : String
  phone : String
  address : String
deriving DecidableEq, Repr

/-- Modelled from the spec: `Dog` (dog_model.rs is not among the sources
at hand) — identifier, owner-reference, name, age, breed. -/
structure Dog where
  _id : Nat
  owner : Nat
  name : String
  age : Nat
  breed : String
deriving DecidableEq, Repr

/-- Modelled from the spec: `FullBooking` (its struct definition is not
among the sources at hand; db.rs deserializes the aggregation output into
it) — a Booking composed with its resolved Owner and the owner's dogs,
as shown in the worked example at the bottom of db.rs. -/
structure FullBooking where
  _id : Nat
  owner : Owner
  start_time : Int
  duration_in_minutes : Nat
  cancelled : Bool
  dogs : List Dog
deriving DecidableEq, Repr

/-- Outcome of `Booking::try_from`: the Rust function returns
`Result<Booking, Box<dyn Error>>` but can also panic (it calls `expect`
on the owner parse), so the model distinguishes all three outcomes. -/
inductive TryFromResult where
  | ok (b : Booking)
  | err (msg : String)
  | panic (msg : String)
deriving DecidableEq, Repr

/-- `TryFrom<BooKingRequest> for Booking` (src/models/booking_model.rs).
The timestamp is parsed first; a parse failure is wrapped by `map_err`
and propagated with `?`. Only then is the `Booking` built: `ObjectId::new()`
is modelled by the `freshId` parameter, and `ObjectId::parse_str(&item.owner)`
is followed by `expect("Failed to parse owner")`, i.e. a panic on failure. -/
def booking_try_from (freshId : Nat) (item : BooKingRequest) : TryFromResult :=
  match parse_from_rfc3339 item.start_time with
  | .error e => .err ("Failed to parse satrt _time : " ++ e)
  | .ok t =>
    match ObjectId.parse_str item.owner with
    | none => .panic "Failed to parse owner"
    | some oid =>
      .ok { _id := freshId, owner := oid, start_time := t * 1000,
            duration_in_minutes := item.duration_in_minutes, cancelled := false }

/-! ### The store and Database operations (src/services/db.rs) -/

/-- The three collections of the `dog_walking` database. -/
structure StoreState where
  booking : List Booking
  dog : List Dog
  owner : List Owner
deriving DecidableEq, Repr

/-- Outcome of `Database::cancel_booking`: `Ok(UpdateResult)` with
matched/modified counts, or a panic (`expect` on the id parse). -/
inductive CancelResult where
  | ok (matchedCount modifiedCount : Nat)
  | panic (msg : String)
deriving DecidableEq, Repr

namespace Db

/-- `update_one` with filter `{_id: oid}` and update
`{$set: {cancelled: true}}`: rewrite the first matching document, and
report `(new collection, matched count, modified count)`. MongoDB counts
a document as modified only if the update changed it. -/
def cancelFirst (oid : Nat) : List Booking → List Booking × Nat × Nat
  | [] => ([], 0, 0)
  | b :: rest =>
    if b._id = oid then
      ({ b with cancelled := true } :: rest, 1, if b.cancelled then 0 else 1)
    else
      let r := cancelFirst oid rest
      (b :: r.1, r.2.1, r.2.2)

/-- `Database::cancel_booking` (src/services/db.rs): parse the id with
`expect` (panic on failure), then `update_one` setting `cancelled` to
true on the matching document. -/
def cancel_booking (st : StoreState) (booking_id : String) : CancelResult × StoreState :=
  match ObjectId.parse_str booking_id with
  | none => (.panic "Failed to parse booking id", st)
  | some oid =>
    let r := cancelFirst oid st.booking
    (.ok r.2.1 r.2.2, { st with booking := r.1 })

/-- Stage 4 of the pipeline (`$lookup` from `dog` on `owner._id = owner`)
composed with the final deserialization into `FullBooking`. -/
def mkFull (st : StoreState) (b : Booking) (o : Owner) : FullBooking :=
  { _id := b._id, owner := o, start_time := b.start_time,
    duration_in_minutes := b.duration_in_minutes, cancelled := b.cancelled,
    dogs := st.dog.filter (fun d => decide (d.owner = o._id)) }

/-- `Database::get_bookings` (src/services/db.rs) with the call-time
`now` made explicit (in milliseconds, like the stored instants):
`$match` keeps documents with `cancelled = false` and `start_time >= now`;
`$lookup` gathers the owners whose `_id` equals the booking's `owner`
field; `$unwind` emits one document per gathered owner (zero documents
when none matched); the dog `$lookup` never filters documents out. -/
def get_bookings (now : Int) (st : StoreState) : List FullBooking :=
  (st.booking.filter (fun b => !b.cancelled && decide (now ≤ b.start_time))).flatMap
    (fun b => (st.owner.filter (fun o => decide (o._id = b.owner))).map (mkFull st b))

/-- The write/read operations the service exposes on the store. -/
inductive Op where
  | createOwner (o : Owner)
  | createDog (d : Dog)
  | createBooking (b : Booking)
  | cancelBooking (id : String)
  | getBookings (now : Int)

/-- Effect of each operation on the store: the three `create_*` methods
are single `insert_one` calls, `cancel_booking` is the update above, and
`get_bookings` is read-only. -/
def step (st : StoreState) : Op → StoreState
  | .createOwner o => { st with owner := st.owner ++ [o] }
  | .createDog d => { st with dog := st.dog ++ [d] }
  | .createBooking b => { st with booking := st.booking ++ [b] }
  | .cancelBooking id => (cancel_booking st id).2
  | .getBookings _ => st

end Db

/-- A query row is derived from a given booking record: it reproduces the
record's id, start time, duration and cancelled flag. -/
def DerivedFrom (fb : FullBooking) (b : Booking) : Prop :=
  fb._id = b._id ∧ fb.start_time = b.start_time ∧
  fb.duration_in_minutes = b.duration_in_minutes ∧ fb.cancelled = b.cancelled

instance (fb : FullBooking) (b : Booking) : Decidable (DerivedFrom fb b) := by
  unfold DerivedFrom; infer_instance

/-! ### Concrete fixtures (for evaluating the theorems on closed inputs) -/

/-- A sample owner with two dogs. -/
def ownerAlice : Owner := ⟨101, "Alice", "alice@mail", "111", "1 Main St"⟩

/-- A sample owner with no dogs. -/
def ownerBob : Owner := ⟨102, "Bob", "bob@mail", "222", "2 Main St"⟩

/-- A dog of Alice. -/
def dogRex : Dog := ⟨201, 101, "Rex", 3, "labrador"⟩

/-- Another dog of Alice. -/
def dogBella : Dog := ⟨202, 101, "Bella", 5, "pug"⟩

/-- Active booking for Alice. -/
def bookingB1 : Booking := ⟨1, 101, 2000, 30, false⟩

/-- Active booking whose owner reference (999) resolves to no owner. -/
def bookingB2 : Booking := ⟨2, 999, 3000, 30, false⟩

/-- A cancelled booking. -/
def bookingB3 : Booking := ⟨3, 101, 5000, 45, true⟩

/-- Active booking for Bob, who has zero dogs. -/
def bookingB4 : Booking := ⟨4, 102, 2500, 60, false⟩

/-- A sample store holding the four bookings, two dogs and two owners. -/
def sampleState : StoreState :=
  ⟨[bookingB1, bookingB2, bookingB3, bookingB4], [dogRex, dogBella], [ownerAlice, ownerBob]⟩

/-- A store with nothing in it. -/
def emptyState : StoreState := ⟨[], [], []⟩

/-- The 24-hex-digit identifier string of `bookingB1`. -/
def sampleId : String := "000000000000000000000001"

/-! ### Helper lemmas -/

/-- Successful normalization, unfolded: when the timestamp parses to `t`
and the owner string parses to `oid`, `try_from` builds the booking. -/
theorem booking_try_from_eq (freshId : Nat) (item : BooKingRequest) (t : Int) (oid : Nat)
    (hp : parse_from_rfc3339 item.start_time = .ok t)
    (ho : ObjectId.parse_str item.owner = some oid) :
    booking_try_from freshId item
      = .ok ⟨freshId, oid, t * 1000, item.duration_in_minutes, false⟩ := by
  unfold booking_try_from
  rw [hp, ho]

/-! ### Claim theorems: the normalizer -/

/-- C4: if the `start_time` string of a creation request is malformed (in
particular, lacking its timezone offset) so that the RFC 3339 parse fails
with diagnostic `e`, then normalization returns the explicit error result
wrapping that diagnostic — not a default value and not a panic. -/
theorem try_from_invalid_timestamp (freshId : Nat) (req : BooKingRequest) (e : String)
    (h : parse_from_rfc3339 req.start_time = .error e) :
    booking_try_from freshId req = .err ("Failed to parse satrt _time : " ++ e) := by
  unfold booking_try_from
  rw [h]

/-- Witness for C4: a timestamp without an offset is rejected with the
"premature end of input" diagnostic carried in the error result. -/
theorem try_from_invalid_timestamp_witness :
    booking_try_from 0 ⟨"aaaaaaaaaaaaaaaaaaaaaaaa", "2025-09-06T18:30:00", 30⟩
      = .err ("Failed to parse satrt _time : " ++ "premature end of input") :=
  try_from_invalid_timestamp 0 ⟨"aaaaaaaaaaaaaaaaaaaaaaaa", "2025-09-06T18:30:00", 30⟩
    "premature end of input" rfl

/-- C5: parsing a timezone-qualified RFC 3339 timestamp and converting to
UTC is deterministic and agrees with direct UTC conversion: the `+02:00`
form and its `Z` form denote the same absolute instant 2025-09-06T16:30:00Z
(epoch second 1757176200), and a normalized booking created from the
`+02:00` form carries exactly that instant as its `start_time`. -/
theorem parse_utc_roundtrip :
    (∀ s t t', parse_from_rfc3339 s = .ok t → parse_from_rfc3339 s = .ok t' → t = t') ∧
    parse_from_rfc3339 "2025-09-06T18:30:00+02:00" = .ok 1757176200 ∧
    parse_from_rfc3339 "2025-09-06T16:30:00Z" = .ok 1757176200 ∧
    ∀ freshId d ownerStr oid, ObjectId.parse_str ownerStr = some oid →
      booking_try_from freshId ⟨ownerStr, "2025-09-06T18:30:00+02:00", d⟩
        = .ok ⟨freshId, oid, 1757176200000, d, false⟩ := by
  refine ⟨?_, rfl, rfl, ?_⟩
  · intro s t t' h h'
    rw [h] at h'
    exact Except.ok.inj h'
  · intro freshId d ownerStr oid h
    have hb := booking_try_from_eq freshId ⟨ownerStr, "2025-09-06T18:30:00+02:00", d⟩
      1757176200 oid rfl h
    norm_num at hb
    exact hb

/-- Witness for C5: instantiating the quantified parts at the epoch second
1757176200 and at a concrete 24-hex-digit owner string. -/
theorem parse_utc_roundtrip_witness :
    (1757176200 : Int) = 1757176200 ∧
    booking_try_from 7 ⟨"aaaaaaaaaaaaaaaaaaaaaaaa", "2025-09-06T18:30:00+02:00", 30⟩
      = .ok ⟨7, 52818775009509558395695966890, 1757176200000, 30, false⟩ :=
  ⟨parse_utc_roundtrip.1 "2025-09-06T16:30:00Z" 1757176200 1757176200 rfl rfl,
   parse_utc_roundtrip.2.2.2 7 30 "aaaaaaaaaaaaaaaaaaaaaaaa" 52818775009509558395695966890 rfl⟩

/-- C6 (divergence witness): on a creation request whose owner string is
not a valid identifier, the code panics ("Failed to parse owner", via
`expect`) instead of returning the `InvalidReference` error result the
specification promises. -/
theorem try_from_bad_owner_panics :
    booking_try_from 0 ⟨"zzz", "2025-09-06T18:30:00+02:00", 30⟩
      = .panic "Failed to parse owner" := rfl

/-- C8: every successfully normalized booking starts in the Active state
(`cancelled = false`) and carries the request's `duration_in_minutes`
unchanged — for any duration value, with no upper-bound validation. -/
theorem try_from_initial_active (freshId : Nat) (req : BooKingRequest) (b : Booking)
    (h : booking_try_from freshId req = .ok b) :
    b.cancelled = false ∧ b.duration_in_minutes = req.duration_in_minutes := by
  unfold booking_try_from at h
  split at h
  · simp at h
  · split at h
    · simp at h
    · injection h with h
      subst h
      exact ⟨rfl, rfl⟩

/-- Witness for C8: the booking normalized from a concrete valid request
is Active and keeps the requested duration. -/
theorem try_from_initial_active_witness :
    (Booking.mk 7 52818775009509558395695966890 1757176200000 30 false).cancelled = false ∧
    (Booking.mk 7 52818775009509558395695966890 1757176200000 30 false).duration_in_minutes
      = (BooKingRequest.mk "aaaaaaaaaaaaaaaaaaaaaaaa" "2025-09-06T18:30:00+02:00" 30).duration_in_minutes :=
  try_from_initial_active 7 ⟨"aaaaaaaaaaaaaaaaaaaaaaaa", "2025-09-06T18:30:00+02:00", 30⟩
    (Booking.mk 7 52818775009509558395695966890 1757176200000 30 false) rfl

/-! ### Helper lemmas about the cancel update -/

/-- `update_one` with an unmatched filter touches nothing and reports
zero matched and zero modified documents. -/
theorem cancelFirst_no_match (oid : Nat) (l : List Booking) (h : ∀ b ∈ l, b._id ≠ oid) :
    Db.cancelFirst oid l = (l, 0, 0) := by
  induction l with
  | nil => rfl
  | cons b rest ih =>
    have hb : ¬ b._id = oid := h b (List.mem_cons_self b rest)
    have ih' := ih (fun b' hb' => h b' (List.mem_cons_of_mem b hb'))
    simp [Db.cancelFirst, hb, ih']

/-- An already-cancelled record survives the cancel update unchanged. -/
theorem cancelFirst_mem_preserved (oid : Nat) (l : List Booking) (b : Booking)
    (hb : b ∈ l) (hc : b.cancelled = true) : b ∈ (Db.cancelFirst oid l).1 := by
  induction l with
  | nil => cases hb
  | cons hd rest ih =>
    rcases List.mem_cons.mp hb with rfl | h
    · by_cases hid : b._id = oid
      · have he : ({ b with cancelled := true } : Booking) = b := by
          cases b; simp_all
        have hs : (Db.cancelFirst oid (b :: rest)).1 = { b with cancelled := true } :: rest := by
          simp [Db.cancelFirst, hid]
        rw [hs, he]
        exact List.mem_cons_self b rest
      · simp [Db.cancelFirst, hid]
    · by_cases hid : hd._id = oid
      · simp [Db.cancelFirst, hid]
        exact Or.inr h
      · simp [Db.cancelFirst, hid]
        exact Or.inr (ih h)

/-- Running the cancel update a second time changes nothing: it matches
the same (now cancelled) document and modifies zero documents. -/
theorem cancelFirst_idem (oid : Nat) (l : List Booking) :
    Db.cancelFirst oid (Db.cancelFirst oid l).1
      = ((Db.cancelFirst oid l).1, (Db.cancelFirst oid l).2.1, 0) := by
  induction l with
  | nil => rfl
  | cons b rest ih =>
    by_cases hid : b._id = oid
    · cases b with
      | mk i o t d c =>
        simp only [] at hid
        subst hid
        simp [Db.cancelFirst]
    · simp [Db.cancelFirst, hid, ih]

/-- When some record matches, the cancel update reports one matched
document and the updated collection holds a cancelled record with the
requested id. -/
theorem cancelFirst_found (oid : Nat) (l : List Booking) (h : ∃ b ∈ l, b._id = oid) :
    (Db.cancelFirst oid l).2.1 = 1 ∧
    ∃ b ∈ (Db.cancelFirst oid l).1, b._id = oid ∧ b.cancelled = true := by
  induction l with
  | nil =>
    rcases h with ⟨b, hb, _⟩
    cases hb
  | cons hd rest ih =>
    by_cases hid : hd._id = oid
    · refine ⟨by simp [Db.cancelFirst, hid], { hd with cancelled := true }, ?_, hid, rfl⟩
      simp [Db.cancelFirst, hid]
    · have h' : ∃ b ∈ rest, b._id = oid := by
        rcases h with ⟨b, hb, hbid⟩
        rcases List.mem_cons.mp hb with rfl | hbr
        · exact absurd hbid hid
        · exact ⟨b, hbr, hbid⟩
      rcases ih h' with ⟨hm, b, hbmem, hbid, hbc⟩
      refine ⟨by simp [Db.cancelFirst, hid, hm], b, ?_, hbid, hbc⟩
      simp [Db.cancelFirst, hid]
      exact Or.inr hbmem

/-- Pointwise description of the cancel update: every record is either
kept verbatim or is the matched record with only `cancelled` set. -/
theorem cancelFirst_pointwise (oid : Nat) (l : List Booking) :
    List.Forall₂ (fun b' b => b' = b ∨ (b._id = oid ∧ b' = { b with cancelled := true }))
      (Db.cancelFirst oid l).1 l := by
  induction l with
  | nil => exact List.Forall₂.nil
  | cons b rest ih =>
    by_cases hid : b._id = oid
    · have hs : (Db.cancelFirst oid (b :: rest)).1 = { b with cancelled := true } :: rest := by
        simp [Db.cancelFirst, hid]
      rw [hs]
      exact List.Forall₂.cons (Or.inr ⟨hid, rfl⟩)
        (List.forall₂_same.mpr fun x _ => Or.inl rfl)
    · have hs : (Db.cancelFirst oid (b :: rest)).1 = b :: (Db.cancelFirst oid rest).1 := by
        simp [Db.cancelFirst, hid]
      rw [hs]
      exact List.Forall₂.cons (Or.inl rfl) ih

/-! ### Claim theorems: the cancel operation -/

/-- C3: cancellation is idempotent and monotonic. A second cancel of the
same id succeeds (no distinct error: same matched count, zero modified)
and leaves the store exactly as after the first; and no operation of the
system — insertions, cancel, or the read-only query — ever removes or
un-cancels a cancelled booking record. -/
theorem cancel_idempotent_monotonic :
    (∀ st id, (ObjectId.parse_str id).isSome = true →
        ∃ m mo st₁, Db.cancel_booking st id = (.ok m mo, st₁) ∧
          Db.cancel_booking st₁ id = (.ok m 0, st₁)) ∧
    (∀ st op b, b ∈ st.booking → b.cancelled = true → b ∈ (Db.step st op).booking) := by
  constructor
  · intro st id h
    cases hp : ObjectId.parse_str id with
    | none => simp [hp] at h
    | some oid =>
      refine ⟨(Db.cancelFirst oid st.booking).2.1, (Db.cancelFirst oid st.booking).2.2,
        { st with booking := (Db.cancelFirst oid st.booking).1 }, ?_, ?_⟩
      · simp [Db.cancel_booking, hp]
      · simp [Db.cancel_booking, hp, cancelFirst_idem]
  · intro st op b hb hc
    cases op with
    | createOwner o => exact hb
    | createDog d => exact hb
    | createBooking nb => exact List.mem_append_left _ hb
    | getBookings now => exact hb
    | cancelBooking id =>
      cases hp : ObjectId.parse_str id with
      | none => simpa [Db.step, Db.cancel_booking, hp] using hb
      | some oid =>
        simp [Db.step, Db.cancel_booking, hp]
        exact cancelFirst_mem_preserved oid st.booking b hb hc

/-- Witness for C3: cancelling booking 1 twice in the sample store, and a
cancelled record surviving a cancel step. -/
theorem cancel_idempotent_monotonic_witness :
    (∃ m mo st₁, Db.cancel_booking sampleState sampleId = (.ok m mo, st₁) ∧
        Db.cancel_booking st₁ sampleId = (.ok m 0, st₁)) ∧
    bookingB3 ∈ (Db.step sampleState (Db.Op.cancelBooking sampleId)).booking :=
  ⟨cancel_idempotent_monotonic.1 sampleState sampleId (by decide),
   cancel_idempotent_monotonic.2 sampleState (Db.Op.cancelBooking sampleId) bookingB3
     (by decide) rfl⟩

/-- C7 (counterexample): cancel does not fail with `NotFound`. On an
empty store a well-formed id that matches nothing yields a success result
reporting zero matched documents, and an unparseable id panics instead of
returning an error result. -/
theorem cancel_no_notfound_counterexample :
    Db.cancel_booking emptyState "00000000000000000000000a" = (.ok 0 0, emptyState) ∧
    (Db.cancel_booking emptyState "not-an-objectid").1
      = CancelResult.panic "Failed to parse booking id" :=
  ⟨rfl, rfl⟩

/-- C7 (amended): if the id does not parse, cancel panics; if it parses
but matches no record, cancel succeeds with a confirmation reporting zero
matched documents and the store unchanged; if it matches, cancel succeeds
reporting one matched document, persists `cancelled = true` on a record
with that id, and leaves the other collections untouched. -/
theorem cancel_booking_amended (st : StoreState) (id : String) :
    (ObjectId.parse_str id = none →
        Db.cancel_booking st id = (.panic "Failed to parse booking id", st)) ∧
    (∀ oid, ObjectId.parse_str id = some oid →
        ((∀ b ∈ st.booking, b._id ≠ oid) → Db.cancel_booking st id = (.ok 0 0, st)) ∧
        ((∃ b ∈ st.booking, b._id = oid) →
            ∃ mo st', Db.cancel_booking st id = (.ok 1 mo, st') ∧
              st'.owner = st.owner ∧ st'.dog = st.dog ∧
              ∃ b ∈ st'.booking, b._id = oid ∧ b.cancelled = true)) := by
  refine ⟨fun h => by simp [Db.cancel_booking, h], fun oid h => ⟨fun hno => ?_, fun hex => ?_⟩⟩
  · simp [Db.cancel_booking, h, cancelFirst_no_match oid st.booking hno]
  · rcases cancelFirst_found oid st.booking hex with ⟨hm, b, hbmem, hbid, hbc⟩
    refine ⟨(Db.cancelFirst oid st.booking).2.2,
      { st with booking := (Db.cancelFirst oid st.booking).1 }, ?_, rfl, rfl,
      b, hbmem, hbid, hbc⟩
    simp [Db.cancel_booking, h, hm]

/-- Witness for C7's amended statement: cancelling booking 1 in the
sample store matches one record and leaves it cancelled. -/
theorem cancel_booking_amended_witness :
    ∃ mo st', Db.cancel_booking sampleState sampleId = (.ok 1 mo, st') ∧
      st'.owner = sampleState.owner ∧ st'.dog = sampleState.dog ∧
      ∃ b ∈ st'.booking, b._id = 1 ∧ b.cancelled = true :=
  ((cancel_booking_amended sampleState sampleId).2 1 (by decide)).2
    ⟨bookingB1, by decide, rfl⟩

/-- C10: the cancel operation leaves the owner and dog collections
untouched, and rewrites the booking collection pointwise: every record is
either kept verbatim, or is a record whose id the given string parses to
with only its `cancelled` field set to true (id, owner, start time and
duration unchanged). -/
theorem cancel_booking_frame (st : StoreState) (id : String) :
    (Db.cancel_booking st id).2.owner = st.owner ∧
    (Db.cancel_booking st id).2.dog = st.dog ∧
    List.Forall₂
      (fun b' b => b' = b ∨
        (ObjectId.parse_str id = some b._id ∧ b' = { b with cancelled := true }))
      (Db.cancel_booking st id).2.booking st.booking := by
  cases h : ObjectId.parse_str id with
  | none =>
    refine ⟨by simp [Db.cancel_booking, h], by simp [Db.cancel_booking, h], ?_⟩
    have hs : (Db.cancel_booking st id).2.booking = st.booking := by
      simp [Db.cancel_booking, h]
    rw [hs]
    exact List.forall₂_same.mpr fun b _ => Or.inl rfl
  | some oid =>
    refine ⟨by simp [Db.cancel_booking, h], by simp [Db.cancel_booking, h], ?_⟩
    have hs : (Db.cancel_booking st id).2.booking = (Db.cancelFirst oid st.booking).1 := by
      simp [Db.cancel_booking, h]
    rw [hs]
    refine List.Forall₂.imp ?_ (cancelFirst_pointwise oid st.booking)
    intro b' b hb
    rcases hb with rfl | ⟨hbid, rfl⟩
    · exact Or.inl rfl
    · exact Or.inr ⟨by rw [hbid], rfl⟩

/-! ### Helper lemma about the aggregation query -/

/-- Membership in `get_bookings`, unfolded stage by stage: a row is in
the query output exactly when it is the composition of a stored booking
passing the `$match` filter with a stored owner matched by the `$lookup`
and `$unwind` stages. -/
theorem mem_get_bookings (now : Int) (st : StoreState) (fb : FullBooking) :
    fb ∈ Db.get_bookings now st ↔
      ∃ b ∈ st.booking, b.cancelled = false ∧ now ≤ b.start_time ∧
        ∃ o ∈ st.owner, o._id = b.owner ∧ fb = Db.mkFull st b o := by
  simp only [Db.get_bookings, List.mem_flatMap, List.mem_filter, List.mem_map,
    Bool.and_eq_true, Bool.not_eq_true', decide_eq_true_eq]
  constructor
  · rintro ⟨b, ⟨hb, hc, ht⟩, o, ⟨ho, hoid⟩, rfl⟩
    exact ⟨b, hb, hc, ht, o, ho, hoid, rfl⟩
  · rintro ⟨b, hb, hc, ht, o, ho, hoid, rfl⟩
    exact ⟨b, ⟨hb, hc, ht⟩, o, ⟨ho, hoid⟩, rfl⟩

/-! ### Claim theorems: the active-bookings query -/

/-- C1: every query row is derived only from bookings that are not
cancelled and start at or after `now` (so a cancelled booking is never
represented, and one strictly in the past is excluded); conversely a
non-cancelled booking whose start time is at least `now` — equality
included — and whose owner resolves contributes a derived row. -/
theorem get_bookings_active_future (now : Int) (st : StoreState) :
    (∀ fb ∈ Db.get_bookings now st, ∀ b : Booking, DerivedFrom fb b →
        b.cancelled = false ∧ now ≤ b.start_time) ∧
    (∀ b ∈ st.booking, b.cancelled = false → now ≤ b.start_time →
        (∃ o ∈ st.owner, o._id = b.owner) →
        ∃ fb ∈ Db.get_bookings now st, DerivedFrom fb b) := by
  constructor
  · intro fb hfb b hd
    rcases (mem_get_bookings now st fb).mp hfb with ⟨b₀, _, hc₀, ht₀, o, _, _, rfl⟩
    rcases hd with ⟨_, hst, _, hca⟩
    constructor
    · rw [← hca]
      exact hc₀
    · rw [← hst]
      exact ht₀
  · intro b hb hc ht hex
    rcases hex with ⟨o, ho, hoid⟩
    exact ⟨Db.mkFull st b o,
      (mem_get_bookings now st (Db.mkFull st b o)).mpr ⟨b, hb, hc, ht, o, ho, hoid, rfl⟩,
      rfl, rfl, rfl, rfl⟩

/-- Witness for C1: with `now` equal to booking 1's exact start instant
(inclusive lower bound), the sample query contains a row derived from
booking 1. -/
theorem get_bookings_active_future_witness :
    ∃ fb ∈ Db.get_bookings 2000 sampleState, DerivedFrom fb bookingB1 :=
  (get_bookings_active_future 2000 sampleState).2 bookingB1 (by decide) rfl (by decide)
    ⟨ownerAlice, by decide, rfl⟩

/-- C2: a booking whose owner reference resolves to no stored owner
contributes zero rows: no output row carries its id (stated for stores
where the id identifies the booking record uniquely). The query itself
still produces a result list — the record is dropped, not an error. -/
theorem get_bookings_unresolved_owner_dropped (now : Int) (st : StoreState) (b : Booking)
    (hb : b ∈ st.booking) (hc : b.cancelled = false) (ht : now ≤ b.start_time)
    (hno : ∀ o ∈ st.owner, o._id ≠ b.owner)
    (huniq : ∀ b' ∈ st.booking, b'._id = b._id → b' = b) :
    ∀ fb ∈ Db.get_bookings now st, fb._id ≠ b._id := by
  intro fb hfb heq
  rcases (mem_get_bookings now st fb).mp hfb with ⟨b', hb', _, _, o, ho, hoid, rfl⟩
  have hbb : b' = b := huniq b' hb' heq
  rw [hbb] at hoid
  exact hno o ho hoid

/-- Witness for C2: booking 2 of the sample store references owner 999,
which no owner record carries; the concrete row the sample query emits
for booking 1 does not carry id 2. -/
theorem get_bookings_unresolved_owner_dropped_witness :
    (Db.mkFull sampleState bookingB1 ownerAlice)._id ≠ bookingB2._id :=
  get_bookings_unresolved_owner_dropped 1000 sampleState bookingB2
    (by decide) rfl (by decide) (by decide) (by decide)
    (Db.mkFull sampleState bookingB1 ownerAlice) (by decide)

/-- C9: a surviving booking whose resolved owner has zero matching dog
records still yields a row — with that owner and an empty dog list — and
no error. -/
theorem get_bookings_empty_dog_set (now : Int) (st : StoreState) (b : Booking) (o : Owner)
    (hb : b ∈ st.booking) (hc : b.cancelled = false) (ht : now ≤ b.start_time)
    (ho : o ∈ st.owner) (hoid : o._id = b.owner)
    (hdogs : ∀ d ∈ st.dog, d.owner ≠ o._id) :
    ∃ fb ∈ Db.get_bookings now st, fb._id = b._id ∧ fb.owner = o ∧ fb.dogs = [] := by
  refine ⟨Db.mkFull st b o,
    (mem_get_bookings now st (Db.mkFull st b o)).mpr ⟨b, hb, hc, ht, o, ho, hoid, rfl⟩,
    rfl, rfl, ?_⟩
  show st.dog.filter (fun d => decide (d.owner = o._id)) = []
  exact List.filter_eq_nil_iff.mpr fun d hd => by simp [hdogs d hd]

/-- Witness for C9: booking 4 belongs to Bob, who has no dogs; the sample
query still emits a row for it, with an empty dog list. -/
theorem get_bookings_empty_dog_set_witness :
    ∃ fb ∈ Db.get_bookings 1000 sampleState, fb._id = bookingB4._id ∧
      fb.owner = ownerBob ∧ fb.dogs = [] :=
  get_bookings_empty_dog_set 1000 sampleState bookingB4 ownerBob
    (by decide) rfl (by decide) (by decide) rfl (by decide)

end DogWalking
